import Mathlib

/-!
Shallow embedding of the fedsim-mcp simulation core
(`src/actions/action-wrapper.ts` simulation section and
`src/actions/randomization-algorithms.ts`).

JavaScript numbers are modelled as exact rationals (`ℚ`) for attribute
values and as integers (`ℤ`) for ids and counts; the random source
`Math.random()` is modelled as an explicit stream `g : Nat → ℚ` of draws
(intended range `[0,1)`), threaded by index, one index per call site.
Truthiness defaulting such as `x || 0` is the identity on a total numeric
field, and `points || 1` maps the value 0 to 1.
-/

/-- Performer record (`Wrestler` interface in `action-wrapper.ts`),
restricted to the fields the simulation core reads. -/
structure Wrestler where
  id : ℤ
  name : String
  active : Bool
  gender : String
  points : ℚ
  morale : ℚ
  stamina : ℚ
  popularity : ℚ
  charisma : ℚ
  cost : ℚ
  alignment : String
  deriving Repr, DecidableEq

/-- `Appearance` interface in `action-wrapper.ts`; `wrestler?` is optional
in the source, hence `Option Wrestler` here. -/
structure Appearance where
  wrestlerId : ℤ
  groupId : ℤ
  manager : Bool
  cost : ℚ
  winner : Bool
  loser : Bool
  wrestler : Option Wrestler
  deriving Repr, DecidableEq

/-- The weight the match engine gives one linked performer:
`(points || 1) + 0.5*morale + 0.3*stamina + 0.2*(popularity + charisma)`. -/
def wrestlerWeight (w : Wrestler) : ℚ :=
  (if w.points = 0 then 1 else w.points) +
    (1/2) * w.morale + (3/10) * w.stamina + (1/5) * (w.popularity + w.charisma)

/-- Weight of an appearance; only applied to items whose `wrestler` is
present (the filter in `selectWinner` guarantees it). -/
def appearanceWeight (a : Appearance) : ℚ :=
  match a.wrestler with
  | some w => wrestlerWeight w
  | none => 0

/-- The cumulative-weight walk in `selectWinner`: subtract each item weight
from the threshold and return the first item that makes it non-positive. -/
def walkWinner : List Appearance → ℚ → Option ℤ
  | [], _ => none
  | a :: rest, t =>
      if t - appearanceWeight a ≤ 0 then some a.wrestlerId
      else walkWinner rest (t - appearanceWeight a)

/-- `selectWinner` from `action-wrapper.ts`: filter to non-manager
appearances with a linked wrestler, roulette-select by weight with the one
random draw `r`, falling back to the first item. `none` models the `null`
return for an empty eligible list. -/
def selectWinner (appearances : List Appearance) (r : ℚ) : Option ℤ :=
  let items := appearances.filter (fun a => a.wrestler.isSome && !a.manager)
  if items.isEmpty then none
  else
    let totalWeight := (items.map appearanceWeight).sum
    match walkWinner items (r * totalWeight) with
    | some wid => some wid
    | none => items.head?.map (fun a => a.wrestlerId)

/-- `simulateMatch` from `action-wrapper.ts`. `r` is the single random draw
consumed by `selectWinner`. An absent winning group (JS `undefined`)
is `none`, and the JS `===` comparisons against it are `Option` equality. -/
def simulateMatch (appearances : List Appearance) (r : ℚ) : List Appearance :=
  let groupIds := (appearances.map (fun a => a.groupId)).dedup
  if 1 < groupIds.length then
    let winnerId := selectWinner appearances r
    let winningGroupId : Option ℤ :=
      winnerId.bind fun wid =>
        (appearances.find? (fun a => a.wrestlerId == wid)).map (fun a => a.groupId)
    appearances.map fun item =>
      { item with
        winner := some item.groupId == winningGroupId
        loser := !(some item.groupId == winningGroupId) }
  else appearances

/-- `a.wrestler?.points || 0` etc.: attribute of the linked wrestler with
JS optional-chaining defaulting to 0. -/
def appPoints (a : Appearance) : ℚ := match a.wrestler with | some w => w.points | none => 0

def appMorale (a : Appearance) : ℚ := match a.wrestler with | some w => w.morale | none => 0

def appPopularity (a : Appearance) : ℚ := match a.wrestler with | some w => w.popularity | none => 0

def appCharisma (a : Appearance) : ℚ := match a.wrestler with | some w => w.charisma | none => 0

/-- `a.wrestler?.alignment`: `none` models JS `undefined`. -/
def appAlignment (a : Appearance) : Option String :=
  match a.wrestler with | some w => some w.alignment | none => none

/-- The diagnostic record `calculateSegmentRating` pushes onto `history`. -/
structure RatingHistory where
  avgPoints : ℚ
  hasHighPoints : Bool
  hasZeroPoints : Bool
  hasLowPoints : Bool
  stars : ℕ
  avgMorale : ℚ
  hasHighMorale : Bool
  hasZeroMorale : Bool
  hasLowMorale : Bool
  allHighMorale : Bool
  avgPopularity : ℚ
  hasLowPopularity : Bool
  hasMiddlingPopularity : Bool
  allHighPopularity : Bool
  superHighPopularity : Bool
  hasHeel : Bool
  hasFace : Bool
  hasNeutral : Bool
  allHasSameAlignment : Bool
  avgCharisma : ℚ
  hasHighCharisma : Bool
  hasZeroCharisma : Bool
  hasLowCharisma : Bool
  finalScore : ℚ
  deriving Repr, DecidableEq

/-- Result shape of `calculateSegmentRating`. -/
structure RatingResult where
  score : ℚ
  history : List RatingHistory
  deriving Repr, DecidableEq

/-- `calculateSegmentRating` from `action-wrapper.ts`: the flat sequence of
additive scoring rules, final score `max 0 (score / 100)`, one history
record per call. -/
def calculateSegmentRating (appearances : List Appearance) : RatingResult :=
  if appearances.length < 2 then { score := 0, history := [] }
  else
    let n : ℚ := appearances.length
    let avgPoints := (appearances.map appPoints).sum / n
    let hasHighPoints := appearances.any (fun a => 50 ≤ appPoints a)
    let hasZeroPoints := appearances.any (fun a => appPoints a = 0)
    let hasLowPoints := appearances.any (fun a => appPoints a ≤ 20)
    let stars := (appearances.filter (fun a => 90 ≤ appPoints a)).length
    let score0 : ℚ :=
      (if hasHighPoints then 50 else 0) + (if 50 < avgPoints then 50 else 0)
        - (if hasZeroPoints then 50 else 0) - (if hasLowPoints then 20 else 0)
        + 100 * stars
    let hasHighMorale := appearances.any (fun a => 50 ≤ appMorale a)
    let hasZeroMorale := appearances.any (fun a => appMorale a = 0)
    let hasLowMorale := appearances.any (fun a => appMorale a ≤ 20)
    let allHighMorale := appearances.all (fun a => 60 ≤ appMorale a)
    let avgMorale := (appearances.map appMorale).sum / n
    let score1 : ℚ := score0
      + (if hasHighMorale then 50 else 0) + (if allHighMorale then 20 else 0)
      - (if hasZeroMorale then 5 else 0) - (if hasLowMorale then 30 else 0)
      + (if 50 < avgMorale then 50 else 0)
    let hasLowPopularity := appearances.any (fun a => appPopularity a ≤ 5)
    let hasMiddlingPopularity := appearances.any (fun a => appPopularity a ≤ 30)
    let allHighPopularity := appearances.all (fun a => 80 ≤ appPopularity a)
    let superHighPopularity := appearances.any (fun a => 90 ≤ appPopularity a)
    let avgPopularity := (appearances.map appPopularity).sum / n
    let score2 : ℚ := score1
      - (if hasLowPopularity then 50 else 0) - (if hasMiddlingPopularity then 50 else 0)
      + (if allHighPopularity then 40 else 0)
      + (if 50 < avgPopularity then 50 else 0) + (if 80 < avgPopularity then 20 else 0)
      + (if 90 < avgPopularity then 10 else 0) + (if 95 < avgPopularity then 100 else 0)
      + (if superHighPopularity then 70 else 0)
    let hasHeel := appearances.any (fun a => appAlignment a == some "HEEL")
    let hasFace := appearances.any (fun a => appAlignment a == some "FACE")
    let hasNeutral := appearances.any (fun a => appAlignment a == some "NEUTRAL")
    let firstAlignment := match appearances with | [] => none | a :: _ => appAlignment a
    let allHasSameAlignment := appearances.all (fun a => appAlignment a == firstAlignment)
    let score3 : ℚ := score2
      + (if (hasHeel && hasFace) || (hasHeel && hasNeutral) || (hasFace && hasNeutral)
         then 50 else 0)
      - (if allHasSameAlignment then 200 else 0)
      + (if hasHeel || hasFace then 50 else 0)
    let hasHighCharisma := appearances.any (fun a => 70 ≤ appCharisma a)
    let hasZeroCharisma := appearances.any (fun a => appCharisma a = 0)
    let hasLowCharisma := appearances.any (fun a => appCharisma a ≤ 20)
    let avgCharisma := (appearances.map appCharisma).sum / n
    let score4 : ℚ := score3
      + (if hasHighCharisma then 50 else 0) + (if 50 < avgCharisma then 50 else 0)
      - (if hasZeroCharisma then 50 else 0) - (if hasLowCharisma then 50 else 0)
    let finalScore := max 0 (score4 / 100)
    { score := finalScore
      history := [{
        avgPoints := avgPoints, hasHighPoints := hasHighPoints
        hasZeroPoints := hasZeroPoints, hasLowPoints := hasLowPoints, stars := stars
        avgMorale := avgMorale, hasHighMorale := hasHighMorale
        hasZeroMorale := hasZeroMorale, hasLowMorale := hasLowMorale
        allHighMorale := allHighMorale
        avgPopularity := avgPopularity, hasLowPopularity := hasLowPopularity
        hasMiddlingPopularity := hasMiddlingPopularity
        allHighPopularity := allHighPopularity
        superHighPopularity := superHighPopularity
        hasHeel := hasHeel, hasFace := hasFace, hasNeutral := hasNeutral
        allHasSameAlignment := allHasSameAlignment
        avgCharisma := avgCharisma, hasHighCharisma := hasHighCharisma
        hasZeroCharisma := hasZeroCharisma, hasLowCharisma := hasLowCharisma
        finalScore := finalScore }] }

/-- `generateSegmentName` from `randomization-algorithms.ts`. A list of
length 1 or ≥ 5 falls through to the final template. -/
def generateSegmentName (wrestlers : List Wrestler) : String :=
  match wrestlers with
  | [] => "Untitled Segment"
  | [a, b] => a.name ++ " vs " ++ b.name
  | [a, b, c] =>
      "Triple Threat: " ++ String.intercalate " vs " [a.name, b.name, c.name]
  | [a, b, c, d] =>
      "Fatal Four-Way: " ++ String.intercalate " vs " [a.name, b.name, c.name, d.name]
  | ws =>
      toString ws.length ++ "-Way Match: " ++
        String.intercalate " vs " ((ws.take 2).map (fun w => w.name)) ++
        " and " ++ toString ((ws.length : ℤ) - 2) ++ " others"

/-- Boolean character-list prefix test (helper for substring claims). -/
def charsPrefix : List Char → List Char → Bool
  | [], _ => true
  | _ :: _, [] => false
  | a :: as, b :: bs => a == b && charsPrefix as bs

/-- Boolean substring test over the underlying character lists. -/
def charsSub (needle : List Char) : List Char → Bool
  | [] => charsPrefix needle []
  | c :: cs => charsPrefix needle (c :: cs) || charsSub needle cs

/-- `containsStr hay needle` holds when `needle` occurs contiguously in
`hay`. -/
def containsStr (hay needle : String) : Bool :=
  charsSub needle.data hay.data

/-! ## Pool generator (`randomization-algorithms.ts`) -/

structure ItemCountConfig where
  options : List ℤ
  weights : List ℚ
  deriving Repr, DecidableEq

structure GroupConfig where
  options : List Bool
  weights : List ℚ
  perGroup : ℕ
  deriving Repr, DecidableEq

structure PropertyConfig where
  options : List String
  weights : List ℚ
  deriving Repr, DecidableEq

/-- `RandomizationConfig` from `randomization-algorithms.ts`. -/
structure RandomizationConfig where
  maxTeams : ℕ
  minPoints : ℚ
  itemCountConfig : ItemCountConfig
  groupConfig : GroupConfig
  propertyConfig : PropertyConfig
  deriving Repr, DecidableEq

/-- `defaultConfig` from `randomization-algorithms.ts`. -/
def defaultConfig : RandomizationConfig :=
  { maxTeams := 4
    minPoints := 40
    itemCountConfig := { options := [2, 3, 4], weights := [7/10, 2/10, 1/10] }
    groupConfig := { options := [true, false], weights := [3/10, 7/10], perGroup := 2 }
    propertyConfig := { options := ["MALE", "FEMALE"], weights := [75/100, 25/100] } }

/-- `getId()`: `Math.floor(Math.random() * 1000000)`, with the draw made
explicit. -/
def getId (r : ℚ) : ℤ := Int.floor (r * 1000000)

/-- The weighted walk inside `selectRandomItem`: subtract weights from the
threshold, return the first item making it non-positive. The two lists have
equal length at every call site that reaches it. -/
def walkItems {α : Type} : List α → List ℚ → ℚ → Option α
  | [], _, _ => none
  | _ :: _, [], _ => none
  | x :: xs, w :: ws, t =>
      if t - w ≤ 0 then some x else walkItems xs ws (t - w)

/-- `selectRandomItem(items, weights?)` with the single random draw `r`
made explicit. With no weights (or a length mismatch) it indexes uniformly
by `⌊r·|items|⌋`; otherwise it roulette-selects and falls back to
`items[0]`. `none` models the out-of-range JS access on an empty list. -/
def selectRandomItem {α : Type} (items : List α) (weights : Option (List ℚ)) (r : ℚ) :
    Option α :=
  let uniform := items.get? (Int.toNat (Int.floor (r * items.length)))
  match weights with
  | none => uniform
  | some ws =>
      if ws.length = items.length then
        let totalWeight := ws.sum
        match walkItems items ws (r * totalWeight) with
        | some x => some x
        | none => items.head?
      else uniform

/-- `pickOption({options, weights})`. -/
def pickOption {α : Type} (options : List α) (weights : List ℚ) (r : ℚ) : Option α :=
  selectRandomItem options (some weights) r

/-- The appearance record both generation branches push
(`manager: false`, `cost` snapshot, flags false, wrestler attached). -/
def mkAppearance (w : Wrestler) (groupId : ℤ) : Appearance :=
  { wrestlerId := w.id
    groupId := groupId
    manager := false
    cost := w.cost
    winner := false
    loser := false
    wrestler := some w }

/-- The inner member loop of the team branch: up to `fuel` members for one
team, each drawn uniformly from the candidates not yet in `usedIds`,
stopping early when the pool is exhausted. Returns the appearances, the
extended used-id list and the next draw index. -/
def pickTeamMembers (avail : List Wrestler) (groupId : ℤ) (g : Nat → ℚ) :
    Nat → List ℤ → Nat → List Appearance × List ℤ × Nat
  | 0, usedIds, i => ([], usedIds, i)
  | fuel + 1, usedIds, i =>
      let availableForTeam := avail.filter (fun w => !usedIds.contains w.id)
      match selectRandomItem availableForTeam none (g i) with
      | none => ([], usedIds, i)
      | some w =>
          let (rest, usedIds2, i2) :=
            pickTeamMembers avail groupId g fuel (usedIds ++ [w.id]) (i + 1)
          (mkAppearance w groupId :: rest, usedIds2, i2)

/-- The outer team loop of the team branch: each team gets a fresh random
`groupId` via `getId` (one draw) and then `wrestlersPerTeam` member picks. -/
def pickTeams (avail : List Wrestler) (wrestlersPerTeam : Nat) (g : Nat → ℚ) :
    Nat → List ℤ → Nat → List Appearance × List ℤ × Nat
  | 0, usedIds, i => ([], usedIds, i)
  | teams + 1, usedIds, i =>
      let groupId := getId (g i)
      let (apps, usedIds2, i2) :=
        pickTeamMembers avail groupId g wrestlersPerTeam usedIds (i + 1)
      let (rest, usedIds3, i3) := pickTeams avail wrestlersPerTeam g teams usedIds2 i2
      (apps ++ rest, usedIds3, i3)

/-- The individual-match loop: the `idx`-th selected wrestler gets
`groupId = idx + 1`, drawn uniformly from the not-yet-used candidates,
stopping early when the pool is exhausted. -/
def pickIndividuals (avail : List Wrestler) (g : Nat → ℚ) :
    Nat → Nat → List ℤ → Nat → List Appearance × List ℤ × Nat
  | 0, _, usedIds, i => ([], usedIds, i)
  | count + 1, idx, usedIds, i =>
      let availableForMatch := avail.filter (fun w => !usedIds.contains w.id)
      match selectRandomItem availableForMatch none (g i) with
      | none => ([], usedIds, i)
      | some w =>
          let (rest, usedIds2, i2) :=
            pickIndividuals avail g count (idx + 1) (usedIds ++ [w.id]) (i + 1)
          (mkAppearance w ((idx : ℤ) + 1) :: rest, usedIds2, i2)

/-- The eligibility filter at the top of `generateAppearances`:
`wrestler.active && wrestler.points >= minPoints && !exclude.includes(id)`. -/
def availableWrestlersOf (wrestlers : List Wrestler) (exclude : List ℤ)
    (minPoints : ℚ) : List Wrestler :=
  wrestlers.filter fun w =>
    w.active && decide (minPoints ≤ w.points) && !exclude.contains w.id

/-- `actualCount`: the weighted participant-count pick (draw index 0)
clamped by `Math.min` to the pool size. A failed pick (JS `undefined` from
degenerate config options) makes every subsequent loop bound `NaN`, so no
iteration runs; count 0 models that. -/
def chosenCount (availableWrestlers : List Wrestler) (config : RandomizationConfig)
    (g : Nat → ℚ) : Nat :=
  match pickOption config.itemCountConfig.options config.itemCountConfig.weights (g 0) with
  | some p => (min p (availableWrestlers.length : ℤ)).toNat
  | none => 0

/-- The soft gender-preference step (draw index 1): restrict to the
preferred gender only when at least `actualCount` candidates remain. -/
def chosenPool (availableWrestlers : List Wrestler) (config : RandomizationConfig)
    (g : Nat → ℚ) : List Wrestler :=
  let genderFilteredWrestlers :=
    match pickOption config.propertyConfig.options config.propertyConfig.weights (g 1) with
    | some gName => availableWrestlers.filter (fun w => w.gender == gName)
    | none => []
  if chosenCount availableWrestlers config g ≤ genderFilteredWrestlers.length then
    genderFilteredWrestlers
  else availableWrestlers

/-- The team/faction branch of `generateAppearances`:
`teamCount = min(2, ⌊actualCount/2⌋)`, `wrestlersPerTeam = ⌊actualCount/teamCount⌋`,
draws starting at index 3. -/
def teamBranch (avail : List Wrestler) (actualCount : Nat) (g : Nat → ℚ) :
    List Appearance :=
  let teamCount := min 2 (actualCount / 2)
  let wrestlersPerTeam := actualCount / teamCount
  (pickTeams avail wrestlersPerTeam g teamCount [] 3).1

/-- The individual-match branch: the source calls `getId()` once for an
unused `groupId` (consuming draw 3), so the member draws start at index 4. -/
def individualBranch (avail : List Wrestler) (actualCount : Nat) (g : Nat → ℚ) :
    List Appearance :=
  (pickIndividuals avail g actualCount 0 [] 4).1

/-- `generateAppearances` from `randomization-algorithms.ts`, with the
random stream `g` explicit. Draw indices follow the source call order:
participant count (0), preferred gender (1), team-mode flag (2), then the
branch-local `getId` and member draws from 3 on. -/
def generateAppearances (wrestlers : List Wrestler) (config : RandomizationConfig)
    (exclude : List ℤ) (minPoints : ℚ) (g : Nat → ℚ) : List Appearance :=
  let availableWrestlers := availableWrestlersOf wrestlers exclude minPoints
  if availableWrestlers.length < 2 then []
  else
    let actualCount := chosenCount availableWrestlers config g
    let avail := chosenPool availableWrestlers config g
    let shouldUseGroups :=
      pickOption config.groupConfig.options config.groupConfig.weights (g 2)
    if shouldUseGroups = some true ∧ 4 ≤ avail.length then
      teamBranch avail actualCount g
    else
      individualBranch avail actualCount g

/-! ## Concrete sample inputs used by witnesses and counterexamples -/

/-- A generic active male performer with mid-range stats. -/
def sampleWrestler (i : ℤ) (nm : String) : Wrestler :=
  { id := i, name := nm, active := true, gender := "MALE", points := 50,
    morale := 50, stamina := 50, popularity := 50, charisma := 50, cost := 10,
    alignment := "FACE" }

/-- Performer A of the spec scenario:
points 95, morale 70, stamina 80, popularity 80, charisma 75, FACE. -/
def wrestlerA : Wrestler :=
  { id := 1, name := "Alpha", active := true, gender := "MALE", points := 95,
    morale := 70, stamina := 80, popularity := 80, charisma := 75, cost := 0,
    alignment := "FACE" }

/-- Performer B of the spec scenario:
points 90, morale 65, stamina 75, popularity 75, charisma 70, HEEL. -/
def wrestlerB : Wrestler :=
  { id := 2, name := "Beta", active := true, gender := "MALE", points := 90,
    morale := 65, stamina := 75, popularity := 75, charisma := 70, cost := 0,
    alignment := "HEEL" }

/-- A in its own group 1. -/
def appA : Appearance := mkAppearance wrestlerA 1

/-- B in its own group 2. -/
def appB : Appearance := mkAppearance wrestlerB 2

/-- B placed in group 1 (same group as A), for the single-group scenario. -/
def appBgroup1 : Appearance := mkAppearance wrestlerB 1

/-- Four eligible same-gender performers with distinct ids. -/
def sampleRoster4 : List Wrestler :=
  [sampleWrestler 1 "Alice", sampleWrestler 2 "Bob",
   sampleWrestler 3 "Carol", sampleWrestler 4 "Dave"]

/-- Two eligible performers with distinct ids. -/
def sampleRoster2 : List Wrestler :=
  [sampleWrestler 1 "Alice", sampleWrestler 2 "Bob"]

/-- The all-zero draw stream. -/
def zeroDraws : Nat → ℚ := fun _ => 0

/-- A config whose participant-count options contain 1
(legal per the `RandomizationConfig` type). -/
def oneParticipantConfig : RandomizationConfig :=
  { defaultConfig with itemCountConfig := { options := [1], weights := [1] } }

/-- Draw stream choosing participant count 4 (draw 0 = 0.95), team mode
(draw 2 = 0), and a second team id draw (index 6) distinct from the first
(index 3). -/
def teamDraws : Nat → ℚ :=
  fun n => if n = 0 then 19/20 else if n = 6 then 1/2 else 0

/-! ## Claim theorems -/

/-- C2: whenever fewer than 2 performers survive the
active/minPoints/exclude filter, `generateAppearances` returns the empty
list (and, being a total function of the draw stream, raises nothing),
for every sequence of random draws. -/
theorem c2_insufficient_pool_empty (wrestlers : List Wrestler)
    (config : RandomizationConfig) (exclude : List ℤ) (minPoints : ℚ) (g : Nat → ℚ)
    (h : (availableWrestlersOf wrestlers exclude minPoints).length < 2) :
    generateAppearances wrestlers config exclude minPoints g = [] := by
  unfold generateAppearances
  simp [h]

/-- Witness for C2 at a one-performer roster and the all-zero stream. -/
theorem c2_insufficient_pool_empty_witness :
    generateAppearances [wrestlerA] defaultConfig [] 40 zeroDraws = [] :=
  c2_insufficient_pool_empty [wrestlerA] defaultConfig [] 40 zeroDraws (by decide)

/-- C4 counterexample: `simulateMatch` on the empty appearance list does
not raise; it returns the empty list as an ordinary value. -/
theorem c4_counterexample_empty_returns : simulateMatch [] 0 = [] := by decide

/-- C4 (amended): for every draw, `simulateMatch []` returns the empty
list unchanged — the zero-group case falls into the no-decision path
rather than raising. -/
theorem c4_empty_no_error (r : ℚ) : simulateMatch [] r = [] := rfl

/-- C5: with exactly one distinct `groupId`, `simulateMatch` returns its
input list unchanged (every field, including both outcome flags, keeps its
input value), for every draw. -/
theorem c5_single_group_unchanged (appearances : List Appearance) (r : ℚ)
    (h : ((appearances.map fun a => a.groupId).dedup).length = 1) :
    simulateMatch appearances r = appearances := by
  unfold simulateMatch
  simp [h]

/-- Witness for C5 at a two-appearance single-group list. -/
theorem c5_single_group_unchanged_witness :
    simulateMatch [appA, appBgroup1] 0 = [appA, appBgroup1] :=
  c5_single_group_unchanged [appA, appBgroup1] 0 (by decide)

/-- C7: with fewer than 2 appearances, `calculateSegmentRating` returns
score 0 and an empty history. -/
theorem c7_short_segment_zero (appearances : List Appearance)
    (h : appearances.length < 2) :
    calculateSegmentRating appearances = { score := 0, history := [] } := by
  unfold calculateSegmentRating
  rw [if_pos h]

/-- Witness for C7 at the empty appearance list. -/
theorem c7_short_segment_zero_witness :
    calculateSegmentRating [] = { score := 0, history := [] } :=
  c7_short_segment_zero [] (by decide)

/-- C9: `generateSegmentName` on 0/1/2/3/4/6 names yields respectively
"Untitled Segment"; a string containing the sole name; a string containing
both names joined by "vs"; a string containing "Triple Threat" and all 3
names; a string containing "Fatal Four-Way" and all 4 names; and a string
containing "6-Way Match". -/
theorem c9_segment_names :
    generateSegmentName [] = "Untitled Segment" ∧
    containsStr (generateSegmentName [sampleWrestler 1 "Alice"]) "Alice" = true ∧
    containsStr (generateSegmentName [sampleWrestler 1 "Alice", sampleWrestler 2 "Bob"])
      "Alice vs Bob" = true ∧
    (containsStr (generateSegmentName [sampleWrestler 1 "Alice", sampleWrestler 2 "Bob",
        sampleWrestler 3 "Carol"]) "Triple Threat" = true ∧
      containsStr (generateSegmentName [sampleWrestler 1 "Alice", sampleWrestler 2 "Bob",
        sampleWrestler 3 "Carol"]) "Alice" = true ∧
      containsStr (generateSegmentName [sampleWrestler 1 "Alice", sampleWrestler 2 "Bob",
        sampleWrestler 3 "Carol"]) "Bob" = true ∧
      containsStr (generateSegmentName [sampleWrestler 1 "Alice", sampleWrestler 2 "Bob",
        sampleWrestler 3 "Carol"]) "Carol" = true) ∧
    (containsStr (generateSegmentName sampleRoster4) "Fatal Four-Way" = true ∧
      containsStr (generateSegmentName sampleRoster4) "Alice" = true ∧
      containsStr (generateSegmentName sampleRoster4) "Bob" = true ∧
      containsStr (generateSegmentName sampleRoster4) "Carol" = true ∧
      containsStr (generateSegmentName sampleRoster4) "Dave" = true) ∧
    containsStr (generateSegmentName
      (sampleRoster4 ++ [sampleWrestler 5 "Erin", sampleWrestler 6 "Frank"]))
      "6-Way Match" = true := by
  decide

/-- C3 counterexample: on a four-performer roster with the all-zero
stream, team mode is chosen (the group-config pick is `true`) with 4
candidates available, yet the generated list has exactly one distinct
`groupId` (one team of two), not the claimed two teams. -/
theorem c3_counterexample_one_team :
    pickOption defaultConfig.groupConfig.options defaultConfig.groupConfig.weights
      (zeroDraws 2) = some true ∧
    4 ≤ (chosenPool (availableWrestlersOf sampleRoster4 [] 40) defaultConfig
      zeroDraws).length ∧
    ((generateAppearances sampleRoster4 defaultConfig [] 40 zeroDraws).map
      fun a => a.groupId).dedup.length = 1 := by
  refine ⟨by norm_num [pickOption, selectRandomItem, walkItems, defaultConfig, zeroDraws],
    by norm_num [chosenPool, chosenCount, availableWrestlersOf, pickOption,
      selectRandomItem, walkItems, getId, sampleRoster4, sampleWrestler,
      defaultConfig, zeroDraws], ?_⟩
  norm_num [generateAppearances, availableWrestlersOf, chosenCount, chosenPool,
    teamBranch, individualBranch, pickTeams, pickTeamMembers, pickIndividuals,
    selectRandomItem, pickOption, walkItems, getId, mkAppearance,
    sampleRoster4, sampleWrestler, defaultConfig, zeroDraws, List.dedup]

/-- C10 counterexample: with a participant-count distribution allowing 1
(a legal config), a two-performer roster and the all-zero stream yield a
generated list of length exactly 1. -/
theorem c10_counterexample_singleton :
    (generateAppearances sampleRoster2 oneParticipantConfig [] 40 zeroDraws).length
      = 1 := by
  norm_num [generateAppearances, availableWrestlersOf, chosenCount, chosenPool,
    teamBranch, individualBranch, pickTeams, pickTeamMembers, pickIndividuals,
    selectRandomItem, pickOption, walkItems, getId, mkAppearance,
    sampleRoster2, sampleWrestler, oneParticipantConfig, defaultConfig, zeroDraws]

/-- C8: for the spec scenario pair A/B (each in its own group),
`calculateSegmentRating` is strictly positive, and for every random draw
`simulateMatch` yields exactly one winner and exactly one loser. -/
theorem c8_scenario_pair (r : ℚ) :
    0 < (calculateSegmentRating [appA, appB]).score ∧
    ((simulateMatch [appA, appB] r).countP fun a => a.winner) = 1 ∧
    ((simulateMatch [appA, appB] r).countP fun a => a.loser) = 1 := by
  refine ⟨by
    norm_num [calculateSegmentRating, appPoints, appMorale, appPopularity, appCharisma,
      appAlignment, appA, appB, mkAppearance, wrestlerA, wrestlerB,
      show ("HEEL" : String) ≠ "FACE" by decide], ?_⟩
  rcases le_or_lt (r * 359) 185 with h1 | h1
  · have e : simulateMatch [appA, appB] r =
        [{ appA with winner := true, loser := false },
         { appB with winner := false, loser := true }] := by
      norm_num [simulateMatch, selectWinner, walkWinner, appearanceWeight,
        wrestlerWeight, appA, appB, mkAppearance, wrestlerA, wrestlerB,
        List.dedup, h1]
    rw [e]
    exact ⟨by decide, by decide⟩
  · rcases le_or_lt (r * 359) 359 with h2 | h2
    · have e : simulateMatch [appA, appB] r =
          [{ appA with winner := false, loser := true },
           { appB with winner := true, loser := false }] := by
        norm_num [simulateMatch, selectWinner, walkWinner, appearanceWeight,
          wrestlerWeight, appA, appB, mkAppearance, wrestlerA, wrestlerB,
          List.dedup, h2, not_le.mpr h1]
      rw [e]
      exact ⟨by decide, by decide⟩
    · have e : simulateMatch [appA, appB] r =
          [{ appA with winner := true, loser := false },
           { appB with winner := false, loser := true }] := by
        norm_num [simulateMatch, selectWinner, walkWinner, appearanceWeight,
          wrestlerWeight, appA, appB, mkAppearance, wrestlerA, wrestlerB,
          List.dedup, not_le.mpr h1, not_le.mpr h2]
      rw [e]
      exact ⟨by decide, by decide⟩

/-- The weighted walk returns the id of one of its items. -/
lemma walkWinner_mem (items : List Appearance) (t : ℚ) (wid : ℤ)
    (h : walkWinner items t = some wid) : ∃ a ∈ items, a.wrestlerId = wid := by
  induction items generalizing t with
  | nil => simp [walkWinner] at h
  | cons a rest ih =>
      rw [walkWinner] at h
      by_cases hc : t - appearanceWeight a ≤ 0
      · rw [if_pos hc] at h
        exact ⟨a, List.mem_cons_self a rest, (Option.some.injEq _ _).mp h⟩
      · rw [if_neg hc] at h
        obtain ⟨b, hb, hbid⟩ := ih _ h
        exact ⟨b, List.mem_cons_of_mem a hb, hbid⟩

/-- With at least one eligible item, `selectWinner` returns the id of some
eligible (non-manager, wrestler-attached) appearance, for every draw. -/
lemma selectWinner_mem (appearances : List Appearance) (r : ℚ)
    (hne : appearances.filter (fun a => a.wrestler.isSome && !a.manager) ≠ []) :
    ∃ a ∈ appearances.filter (fun a => a.wrestler.isSome && !a.manager),
      selectWinner appearances r = some a.wrestlerId := by
  unfold selectWinner
  rw [if_neg (by simpa [List.isEmpty_iff] using hne)]
  cases hw : walkWinner (appearances.filter fun a => a.wrestler.isSome && !a.manager)
      (r * ((appearances.filter fun a => a.wrestler.isSome && !a.manager).map
        appearanceWeight).sum) with
  | some wid =>
      obtain ⟨a, ha, haid⟩ := walkWinner_mem _ _ _ hw
      exact ⟨a, ha, by simp [hw, haid]⟩
  | none =>
      obtain ⟨a, rest, hcons⟩ := List.exists_cons_of_ne_nil hne
      rw [hcons] at hw
      refine ⟨a, by rw [hcons]; exact List.mem_cons_self a rest, ?_⟩
      rw [hcons]
      simp only [List.map_cons, List.sum_cons] at hw
      simp [hw]

/-- With pairwise-distinct `wrestlerId`s, the `find?` lookup by the
winner id locates exactly the winning appearance. -/
lemma find?_wrestlerId_nodup (appearances : List Appearance) (a : Appearance)
    (ha : a ∈ appearances)
    (hnd : (appearances.map fun x => x.wrestlerId).Nodup) :
    appearances.find? (fun x => x.wrestlerId == a.wrestlerId) = some a := by
  have hsome : (appearances.find? (fun x => x.wrestlerId == a.wrestlerId)).isSome := by
    rw [List.find?_isSome]
    exact ⟨a, ha, by simp⟩
  obtain ⟨b, hb⟩ := Option.isSome_iff_exists.mp hsome
  have hbmem : b ∈ appearances := List.mem_of_find?_eq_some hb
  have hbid : b.wrestlerId = a.wrestlerId := by
    have := List.find?_some hb
    simpa using this
  have : b = a := List.inj_on_of_nodup_map hnd hbmem ha hbid
  rw [hb, this]

/-- C1: with at least 2 distinct groups, an eligible appearance, and
distinct performer ids, `simulateMatch` picks a winning appearance and sets
`winner = true` on all and only the appearances of that appearance's group
(managers relabeled by group membership too), `loser = true` on the rest,
for every draw. -/
theorem c1_winning_group_labels (appearances : List Appearance) (r : ℚ)
    (hgroups : 1 < ((appearances.map fun a => a.groupId).dedup).length)
    (helig : ∃ a ∈ appearances, a.manager = false ∧ a.wrestler.isSome = true)
    (hnd : (appearances.map fun a => a.wrestlerId).Nodup) :
    ∃ w ∈ appearances, w.manager = false ∧ w.wrestler.isSome = true ∧
      selectWinner appearances r = some w.wrestlerId ∧
      simulateMatch appearances r = appearances.map fun a =>
        { a with winner := a.groupId == w.groupId
                 loser := !(a.groupId == w.groupId) } := by
  obtain ⟨a0, ha0, hm0, hw0⟩ := helig
  have hne : appearances.filter (fun a => a.wrestler.isSome && !a.manager) ≠ [] := by
    intro hE
    have hmem : a0 ∈ appearances.filter (fun a => a.wrestler.isSome && !a.manager) :=
      List.mem_filter.mpr ⟨ha0, by simp [hm0, hw0]⟩
    rw [hE] at hmem
    exact List.not_mem_nil a0 hmem
  obtain ⟨w, hwmem, hsel⟩ := selectWinner_mem appearances r hne
  obtain ⟨hwin, hwpred⟩ := List.mem_filter.mp hwmem
  have hwm : w.manager = false := by
    rcases Bool.and_eq_true_iff.mp hwpred with ⟨_, h2⟩
    simpa using h2
  have hws : w.wrestler.isSome = true := (Bool.and_eq_true_iff.mp hwpred).1
  have hfind := find?_wrestlerId_nodup appearances w hwin hnd
  refine ⟨w, hwin, hwm, hws, hsel, ?_⟩
  unfold simulateMatch
  rw [if_pos hgroups, hsel]
  simp only [Option.some_bind, hfind, Option.map_some]
  rfl

/-- Witness for C1 at the concrete A/B pair with draw 0. -/
theorem c1_winning_group_labels_witness :
    ∃ w ∈ [appA, appB], w.manager = false ∧ w.wrestler.isSome = true ∧
      selectWinner [appA, appB] 0 = some w.wrestlerId ∧
      simulateMatch [appA, appB] 0 = [appA, appB].map fun a =>
        { a with winner := a.groupId == w.groupId
                 loser := !(a.groupId == w.groupId) } :=
  c1_winning_group_labels [appA, appB] 0 (by decide) (by decide) (by decide)

/-- The member loop appends exactly the ids it selects to the used-id
list, and consumes one draw per selected member. -/
lemma pickTeamMembers_used (avail : List Wrestler) (gid : ℤ) (g : Nat → ℚ)
    (fuel : Nat) :
    ∀ (used : List ℤ) (i : Nat),
      (pickTeamMembers avail gid g fuel used i).2.1 =
        used ++ ((pickTeamMembers avail gid g fuel used i).1.map fun a => a.wrestlerId) ∧
      (pickTeamMembers avail gid g fuel used i).2.2 =
        i + (pickTeamMembers avail gid g fuel used i).1.length := by
  induction fuel with
  | zero => intro used i; simp [pickTeamMembers]
  | succ fuel ih =>
      intro used i
      rw [pickTeamMembers]
      cases hsel : selectRandomItem (avail.filter fun w => !used.contains w.id) none (g i) with
      | none => simp
      | some w =>
          obtain ⟨h1, h2⟩ := ih (used ++ [w.id]) (i + 1)
          rcases hrec : pickTeamMembers avail gid g fuel (used ++ [w.id]) (i + 1)
            with ⟨rest, u2, i2⟩
          rw [hrec] at h1 h2
          simp only [hrec]
          simp only [List.map_cons, List.length_cons, mkAppearance] at *
          constructor
          · rw [h1]; simp
          · rw [h2]; omega

/-- The weighted walk returns one of its items. -/
lemma walkItems_mem {α : Type} (items : List α) (ws : List ℚ) (t : ℚ) (x : α)
    (h : walkItems items ws t = some x) : x ∈ items := by
  induction items generalizing ws t with
  | nil => simp [walkItems] at h
  | cons a rest ih =>
      cases ws with
      | nil => simp [walkItems] at h
      | cons w wrest =>
          rw [walkItems] at h
          by_cases hc : t - w ≤ 0
          · rw [if_pos hc] at h
            exact (Option.some.injEq _ _).mp h ▸ List.mem_cons_self a rest
          · rw [if_neg hc] at h
            exact List.mem_cons_of_mem a (ih wrest _ h)

/-- `selectRandomItem` only ever returns a member of its input list. -/
lemma selectRandomItem_mem {α : Type} (items : List α) (weights : Option (List ℚ))
    (r : ℚ) (x : α) (h : selectRandomItem items weights r = some x) : x ∈ items := by
  unfold selectRandomItem at h
  cases weights with
  | none => exact List.get?_mem h
  | some ws =>
      dsimp only at h
      by_cases hl : ws.length = items.length
      · rw [if_pos hl] at h
        cases hw : walkItems items ws (r * ws.sum) with
        | some y =>
            rw [hw] at h
            exact (Option.some.injEq _ _).mp h ▸ walkItems_mem items ws _ y hw
        | none =>
            rw [hw] at h
            cases items with
            | nil => simp at h
            | cons a rest =>
                simp only [List.head?_cons] at h
                exact (Option.some.injEq _ _).mp h ▸ List.mem_cons_self a rest
      · rw [if_neg hl] at h
        exact List.get?_mem h

/-- Member-loop invariant: the produced ids are pairwise distinct and
fresh relative to the incoming used-id list, and every produced appearance
has the constructed shape (team group id, no manager, flags false). -/
lemma pickTeamMembers_inv (avail : List Wrestler) (gid : ℤ) (g : Nat → ℚ)
    (fuel : Nat) :
    ∀ (used : List ℤ) (i : Nat),
      ((pickTeamMembers avail gid g fuel used i).1.map fun a => a.wrestlerId).Nodup ∧
      ∀ a ∈ (pickTeamMembers avail gid g fuel used i).1,
        a.wrestlerId ∉ used ∧ a.groupId = gid ∧ a.manager = false ∧
        a.winner = false ∧ a.loser = false ∧ a.wrestler.isSome = true := by
  induction fuel with
  | zero => intro used i; simp [pickTeamMembers]
  | succ fuel ih =>
      intro used i
      rw [pickTeamMembers]
      cases hsel : selectRandomItem (avail.filter fun w => !used.contains w.id) none (g i) with
      | none => simp
      | some w =>
          have hwmem : w ∈ avail.filter fun w => !used.contains w.id :=
            selectRandomItem_mem _ _ _ _ hsel
          have hwid : w.id ∉ used := by
            have := (List.mem_filter.mp hwmem).2
            simpa using this
          obtain ⟨hnd, hprops⟩ := ih (used ++ [w.id]) (i + 1)
          rcases hrec : pickTeamMembers avail gid g fuel (used ++ [w.id]) (i + 1)
            with ⟨rest, u2, i2⟩
          rw [hrec] at hnd hprops
          simp only [hrec]
          constructor
          · simp only [List.map_cons, List.nodup_cons, mkAppearance]
            refine ⟨?_, hnd⟩
            intro hc
            obtain ⟨a, ha, haid⟩ := List.mem_map.mp hc
            have := (hprops a ha).1
            rw [haid] at this
            simp at this
          · intro a ha
            rcases List.mem_cons.mp ha with heq | hmem
            · subst heq
              simp [mkAppearance, hwid]
            · obtain ⟨h1, h2⟩ := hprops a hmem
              refine ⟨fun hc => h1 (by simp [hc]), h2⟩

/-- The team loop appends exactly the ids it selects to the used-id
list. -/
lemma pickTeams_used (avail : List Wrestler) (pt : Nat) (g : Nat → ℚ) (teams : Nat) :
    ∀ (used : List ℤ) (i : Nat),
      (pickTeams avail pt g teams used i).2.1 =
        used ++ ((pickTeams avail pt g teams used i).1.map fun a => a.wrestlerId) := by
  induction teams with
  | zero => intro used i; simp [pickTeams]
  | succ teams ih =>
      intro used i
      rw [pickTeams]
      rcases hm : pickTeamMembers avail (getId (g i)) g pt used (i + 1)
        with ⟨apps, u1, i1⟩
      have hmu := (pickTeamMembers_used avail (getId (g i)) g pt used (i + 1)).1
      rw [hm] at hmu
      rcases hr : pickTeams avail pt g teams u1 i1 with ⟨rest, u2, i2⟩
      have hru := ih u1 i1
      rw [hr] at hru
      simp only [hm, hr]
      simp only at hmu hru
      rw [hru, hmu]
      simp [List.append_assoc]

/-- Team-loop invariant: distinct fresh ids, constructed shape. -/
lemma pickTeams_inv (avail : List Wrestler) (pt : Nat) (g : Nat → ℚ) (teams : Nat) :
    ∀ (used : List ℤ) (i : Nat),
      ((pickTeams avail pt g teams used i).1.map fun a => a.wrestlerId).Nodup ∧
      ∀ a ∈ (pickTeams avail pt g teams used i).1,
        a.wrestlerId ∉ used ∧ a.manager = false ∧
        a.winner = false ∧ a.loser = false ∧ a.wrestler.isSome = true := by
  induction teams with
  | zero => intro used i; simp [pickTeams]
  | succ teams ih =>
      intro used i
      rw [pickTeams]
      rcases hm : pickTeamMembers avail (getId (g i)) g pt used (i + 1)
        with ⟨apps, u1, i1⟩
      have hmu := (pickTeamMembers_used avail (getId (g i)) g pt used (i + 1)).1
      have hmi := pickTeamMembers_inv avail (getId (g i)) g pt used (i + 1)
      rw [hm] at hmu hmi
      simp only at hmu hmi
      obtain ⟨hnd1, hprops1⟩ := hmi
      rcases hr : pickTeams avail pt g teams u1 i1 with ⟨rest, u2, i2⟩
      have hri := ih u1 i1
      rw [hr] at hri
      simp only at hri
      obtain ⟨hnd2, hprops2⟩ := hri
      simp only [hm, hr]
      constructor
      · rw [List.map_append, List.nodup_append]
        refine ⟨hnd1, hnd2, ?_⟩
        intro x hx1 hx2
        obtain ⟨a, ha, haid⟩ := List.mem_map.mp hx2
        have : a.wrestlerId ∉ u1 := (hprops2 a ha).1
        rw [haid] at this
        exact this (by rw [hmu]; exact List.mem_append_right used hx1)
      · intro a ha
        rcases List.mem_append.mp ha with h1 | h1
        · obtain ⟨p1, _, p3⟩ := hprops1 a h1
          exact ⟨p1, p3⟩
        · obtain ⟨hu, hrest⟩ := hprops2 a h1
          refine ⟨fun hc => hu ?_, hrest⟩
          rw [hmu]
          exact List.mem_append_left _ hc

/-- The individual loop appends exactly the ids it selects to the
used-id list. -/
lemma pickIndividuals_used (avail : List Wrestler) (g : Nat → ℚ) (count : Nat) :
    ∀ (idx : Nat) (used : List ℤ) (i : Nat),
      (pickIndividuals avail g count idx used i).2.1 =
        used ++ ((pickIndividuals avail g count idx used i).1.map fun a => a.wrestlerId) := by
  induction count with
  | zero => intro idx used i; simp [pickIndividuals]
  | succ count ih =>
      intro idx used i
      rw [pickIndividuals]
      cases hsel : selectRandomItem (avail.filter fun w => !used.contains w.id) none (g i) with
      | none => simp
      | some w =>
          rcases hrec : pickIndividuals avail g count (idx + 1) (used ++ [w.id]) (i + 1)
            with ⟨rest, u2, i2⟩
          have hru := ih (idx + 1) (used ++ [w.id]) (i + 1)
          rw [hrec] at hru
          simp only at hru
          simp only [hrec]
          rw [hru]
          simp [mkAppearance, List.append_assoc]

/-- Individual-loop invariant: distinct fresh ids, constructed shape. -/
lemma pickIndividuals_inv (avail : List Wrestler) (g : Nat → ℚ) (count : Nat) :
    ∀ (idx : Nat) (used : List ℤ) (i : Nat),
      ((pickIndividuals avail g count idx used i).1.map fun a => a.wrestlerId).Nodup ∧
      ∀ a ∈ (pickIndividuals avail g count idx used i).1,
        a.wrestlerId ∉ used ∧ a.manager = false ∧
        a.winner = false ∧ a.loser = false ∧ a.wrestler.isSome = true := by
  induction count with
  | zero => intro idx used i; simp [pickIndividuals]
  | succ count ih =>
      intro idx used i
      rw [pickIndividuals]
      cases hsel : selectRandomItem (avail.filter fun w => !used.contains w.id) none (g i) with
      | none => simp
      | some w =>
          have hwmem : w ∈ avail.filter fun w => !used.contains w.id :=
            selectRandomItem_mem _ _ _ _ hsel
          have hwid : w.id ∉ used := by
            have := (List.mem_filter.mp hwmem).2
            simpa using this
          obtain ⟨hnd, hprops⟩ := ih (idx + 1) (used ++ [w.id]) (i + 1)
          rcases hrec : pickIndividuals avail g count (idx + 1) (used ++ [w.id]) (i + 1)
            with ⟨rest, u2, i2⟩
          rw [hrec] at hnd hprops
          simp only [hrec]
          constructor
          · simp only [List.map_cons, List.nodup_cons, mkAppearance]
            refine ⟨?_, hnd⟩
            intro hc
            obtain ⟨a, ha, haid⟩ := List.mem_map.mp hc
            have := (hprops a ha).1
            rw [haid] at this
            simp at this
          · intro a ha
            rcases List.mem_cons.mp ha with heq | hmem
            · subst heq
              simp [mkAppearance, hwid]
            · obtain ⟨h1, h2⟩ := hprops a hmem
              refine ⟨fun hc => h1 (by simp [hc]), h2⟩

/-- C6: for every roster, constraints and draw stream, the generated
appearance list never repeats a `wrestlerId`, and every `groupId` present
in it belongs to at least one member. -/
theorem c6_unique_ids_inhabited_groups (wrestlers : List Wrestler)
    (config : RandomizationConfig) (exclude : List ℤ) (minPoints : ℚ) (g : Nat → ℚ) :
    ((generateAppearances wrestlers config exclude minPoints g).map
      fun a => a.wrestlerId).Nodup ∧
    ∀ gid ∈ (generateAppearances wrestlers config exclude minPoints g).map
      fun a => a.groupId,
      ∃ a ∈ generateAppearances wrestlers config exclude minPoints g,
        a.groupId = gid := by
  constructor
  · unfold generateAppearances
    by_cases h2 : (availableWrestlersOf wrestlers exclude minPoints).length < 2
    · simp [h2]
    · simp only [if_neg h2]
      by_cases hb : pickOption config.groupConfig.options config.groupConfig.weights
          (g 2) = some true ∧
          4 ≤ (chosenPool (availableWrestlersOf wrestlers exclude minPoints) config g).length
      · rw [if_pos hb]
        unfold teamBranch
        exact (pickTeams_inv _ _ g _ [] 3).1
      · rw [if_neg hb]
        unfold individualBranch
        exact (pickIndividuals_inv _ g _ 0 [] 4).1
  · intro gid hgid
    obtain ⟨a, ha, heq⟩ := List.mem_map.mp hgid
    exact ⟨a, ha, heq⟩

/-- Removing one id from a duplicate-free pool drops at most one
element. -/
lemma length_filter_ne (l : List Wrestler) (u : ℤ)
    (hnd : (l.map fun w => w.id).Nodup) :
    l.length - 1 ≤ (l.filter fun w => !(w.id == u)).length := by
  induction l with
  | nil => simp
  | cons a as ih =>
      simp only [List.map_cons, List.nodup_cons] at hnd
      obtain ⟨hna, hnd2⟩ := hnd
      have ihh := ih hnd2
      by_cases ha : a.id = u
      · have hall : as.filter (fun w => !(w.id == u)) = as := by
          apply List.filter_eq_self.mpr
          intro b hb
          have hne : b.id ≠ u := fun hc => hna (by
            rw [← ha] at hc
            exact List.mem_map.mpr ⟨b, hb, hc⟩)
          simpa using hne
        simp [List.filter_cons, ha, hall]
      · rw [List.filter_cons, if_pos (show (!(a.id == u)) = true by simp [ha])]
        simp only [List.length_cons]
        omega

/-- Filtering a duplicate-free pool by a used-id list drops at most one
element per used id. -/
lemma length_filter_not_mem (used : List ℤ) :
    ∀ (l : List Wrestler), ((l.map fun w => w.id).Nodup) →
      l.length - used.length ≤ (l.filter fun w => !used.contains w.id).length := by
  induction used with
  | nil => intro l _; simp
  | cons u us ih =>
      intro l hnd
      have heq : (l.filter fun w => !(u :: us).contains w.id) =
          ((l.filter fun w => !us.contains w.id).filter fun w => !(w.id == u)) := by
        rw [List.filter_filter]
        apply List.filter_congr
        intro w _
        by_cases hwu : w.id = u <;> simp [List.contains_cons, Bool.not_or, Bool.and_comm, hwu]
      have hnd2 : ((l.filter fun w => !us.contains w.id).map fun w => w.id).Nodup := by
        have hsub : List.Sublist (l.filter fun w => !us.contains w.id) l :=
          List.filter_sublist l
        exact (hsub.map fun w => w.id).nodup hnd
      have h1 := ih l hnd
      have h2 := length_filter_ne (l.filter fun w => !us.contains w.id) u hnd2
      rw [heq]
      simp only [List.length_cons]
      omega

/-- An unweighted pick from a nonempty list with an in-range draw always
succeeds. -/
lemma selectRandomItem_uniform_isSome {α : Type} (items : List α) (r : ℚ)
    (hne : items ≠ []) (h0 : 0 ≤ r) (h1 : r < 1) :
    ∃ x, selectRandomItem items none r = some x := by
  unfold selectRandomItem
  dsimp only
  have hlen : 0 < items.length := List.length_pos.mpr hne
  have hfl0 : 0 ≤ ⌊r * (items.length : ℚ)⌋ :=
    Int.floor_nonneg.mpr (by positivity)
  have hflt : ⌊r * (items.length : ℚ)⌋ < (items.length : ℤ) := by
    apply Int.floor_lt.mpr
    push_cast
    calc r * (items.length : ℚ) < 1 * (items.length : ℚ) := by
          apply mul_lt_mul_of_pos_right h1
          exact_mod_cast hlen
      _ = (items.length : ℚ) := one_mul _
  have hk : (⌊r * (items.length : ℚ)⌋).toNat < items.length := by omega
  exact ⟨items.get ⟨_, hk⟩, List.get?_eq_get hk⟩

/-- With distinct pool ids, in-range draws, and enough candidates left,
the member loop fills the team completely. -/
lemma pickTeamMembers_length (avail : List Wrestler) (gid : ℤ) (g : Nat → ℚ)
    (hnd : (avail.map fun w => w.id).Nodup) (hg : ∀ n, 0 ≤ g n ∧ g n < 1)
    (fuel : Nat) :
    ∀ (used : List ℤ) (i : Nat), used.length + fuel ≤ avail.length →
      (pickTeamMembers avail gid g fuel used i).1.length = fuel := by
  induction fuel with
  | zero => intro used i _; simp [pickTeamMembers]
  | succ fuel ih =>
      intro used i hle
      have hfl := length_filter_not_mem used avail hnd
      have hne : (avail.filter fun w => !used.contains w.id) ≠ [] := by
        have : 0 < (avail.filter fun w => !used.contains w.id).length := by omega
        exact List.ne_nil_of_length_pos this
      obtain ⟨w, hsel⟩ :=
        selectRandomItem_uniform_isSome _ (g i) hne (hg i).1 (hg i).2
      rw [pickTeamMembers, hsel]
      rcases hrec : pickTeamMembers avail gid g fuel (used ++ [w.id]) (i + 1)
        with ⟨rest, u2, i2⟩
      have hlen := ih (used ++ [w.id]) (i + 1) (by simp; omega)
      rw [hrec] at hlen
      simp only [hrec]
      simp [hlen]

/-- With distinct pool ids, in-range draws, and enough candidates left,
the individual loop selects the full requested count. -/
lemma pickIndividuals_length (avail : List Wrestler) (g : Nat → ℚ)
    (hnd : (avail.map fun w => w.id).Nodup) (hg : ∀ n, 0 ≤ g n ∧ g n < 1)
    (count : Nat) :
    ∀ (idx : Nat) (used : List ℤ) (i : Nat), used.length + count ≤ avail.length →
      (pickIndividuals avail g count idx used i).1.length = count := by
  induction count with
  | zero => intro idx used i _; simp [pickIndividuals]
  | succ count ih =>
      intro idx used i hle
      have hfl := length_filter_not_mem used avail hnd
      have hne : (avail.filter fun w => !used.contains w.id) ≠ [] := by
        have : 0 < (avail.filter fun w => !used.contains w.id).length := by omega
        exact List.ne_nil_of_length_pos this
      obtain ⟨w, hsel⟩ :=
        selectRandomItem_uniform_isSome _ (g i) hne (hg i).1 (hg i).2
      rw [pickIndividuals, hsel]
      rcases hrec : pickIndividuals avail g count (idx + 1) (used ++ [w.id]) (i + 1)
        with ⟨rest, u2, i2⟩
      have hlen := ih (idx + 1) (used ++ [w.id]) (i + 1) (by simp; omega)
      rw [hrec] at hlen
      simp only [hrec]
      simp [hlen]

/-- With distinct pool ids, in-range draws, and enough candidates, the
team loop produces `teams * wrestlersPerTeam` appearances. -/
lemma pickTeams_length (avail : List Wrestler) (pt : Nat) (g : Nat → ℚ)
    (hnd : (avail.map fun w => w.id).Nodup) (hg : ∀ n, 0 ≤ g n ∧ g n < 1)
    (teams : Nat) :
    ∀ (used : List ℤ) (i : Nat), used.length + teams * pt ≤ avail.length →
      (pickTeams avail pt g teams used i).1.length = teams * pt := by
  induction teams with
  | zero => intro used i _; simp [pickTeams]
  | succ teams ih =>
      intro used i hle
      rw [pickTeams]
      rcases hm : pickTeamMembers avail (getId (g i)) g pt used (i + 1)
        with ⟨apps, u1, i1⟩
      have hm1 := pickTeamMembers_length avail (getId (g i)) g hnd hg pt used (i + 1)
        (by nlinarith [Nat.succ_mul teams pt])
      have hmu := (pickTeamMembers_used avail (getId (g i)) g pt used (i + 1)).1
      rw [hm] at hm1 hmu
      simp only at hm1 hmu
      rcases hr : pickTeams avail pt g teams u1 i1 with ⟨rest, u2, i2⟩
      have hr1 := ih u1 i1 (by
        have : u1.length = used.length + pt := by
          rw [hmu]; simp [hm1]
        rw [this]
        calc used.length + pt + teams * pt = used.length + (teams + 1) * pt := by ring
          _ ≤ avail.length := hle)
      rw [hr] at hr1
      simp only [hm, hr]
      simp [hm1, hr1]
      ring

/-- The clamped participant count never exceeds the chosen pool size
(the gender restriction is only taken when it leaves enough candidates). -/
lemma chosenCount_le_pool (availableWrestlers : List Wrestler)
    (config : RandomizationConfig) (g : Nat → ℚ) :
    chosenCount availableWrestlers config g ≤
      (chosenPool availableWrestlers config g).length := by
  unfold chosenPool
  dsimp only
  split
  · assumption
  · unfold chosenCount
    cases hp : pickOption config.itemCountConfig.options config.itemCountConfig.weights
        (g 0) with
    | none => exact Nat.zero_le _
    | some p =>
        simp only
        omega

/-- The chosen pool is a sublist of the eligible performers. -/
lemma chosenPool_sublist (availableWrestlers : List Wrestler)
    (config : RandomizationConfig) (g : Nat → ℚ) :
    List.Sublist (chosenPool availableWrestlers config g) availableWrestlers := by
  unfold chosenPool
  dsimp only
  split
  · cases hp : pickOption config.propertyConfig.options config.propertyConfig.weights
        (g 1) with
    | none => simp [hp]
    | some gName => simp only [hp]; exact List.filter_sublist _
  · exact List.Sublist.refl _

/-- The eligibility filter yields a sublist of the roster. -/
lemma availableWrestlersOf_sublist (wrestlers : List Wrestler) (exclude : List ℤ)
    (minPoints : ℚ) :
    List.Sublist (availableWrestlersOf wrestlers exclude minPoints) wrestlers :=
  List.filter_sublist _

/-- A successful `pickOption` returns one of the configured options. -/
lemma pickOption_mem {α : Type} (options : List α) (weights : List ℚ) (r : ℚ) (x : α)
    (h : pickOption options weights r = some x) : x ∈ options :=
  selectRandomItem_mem options (some weights) r x h

/-- C10 (amended): for every roster with pairwise-distinct performer ids,
every config whose participant-count options are all at least 2 (as the
default is), and every in-range draw stream, the generated list never has
length exactly 1, and every generated appearance has `manager`, `winner`
and `loser` all false. -/
theorem c10_no_singleton_fresh_flags (wrestlers : List Wrestler)
    (config : RandomizationConfig) (exclude : List ℤ) (minPoints : ℚ) (g : Nat → ℚ)
    (hnd : (wrestlers.map fun w => w.id).Nodup)
    (hg : ∀ n, 0 ≤ g n ∧ g n < 1)
    (hopts : ∀ p ∈ config.itemCountConfig.options, 2 ≤ p) :
    (generateAppearances wrestlers config exclude minPoints g).length ≠ 1 ∧
    ∀ a ∈ generateAppearances wrestlers config exclude minPoints g,
      a.manager = false ∧ a.winner = false ∧ a.loser = false := by
  have hndA : ((availableWrestlersOf wrestlers exclude minPoints).map
      fun w => w.id).Nodup :=
    (((availableWrestlersOf_sublist wrestlers exclude minPoints).map
      fun w => w.id).nodup hnd)
  have hndP : ((chosenPool (availableWrestlersOf wrestlers exclude minPoints) config g).map
      fun w => w.id).Nodup :=
    (((chosenPool_sublist _ config g).map fun w => w.id).nodup hndA)
  have hacle := chosenCount_le_pool (availableWrestlersOf wrestlers exclude minPoints)
    config g
  constructor
  · by_cases h2 : (availableWrestlersOf wrestlers exclude minPoints).length < 2
    · simp [generateAppearances, h2]
    · have hac : chosenCount (availableWrestlersOf wrestlers exclude minPoints) config g
          = 0 ∨
          2 ≤ chosenCount (availableWrestlersOf wrestlers exclude minPoints) config g := by
        unfold chosenCount
        cases hp : pickOption config.itemCountConfig.options
            config.itemCountConfig.weights (g 0) with
        | none => left; rfl
        | some p =>
            right
            have hp2 : 2 ≤ p := hopts p (pickOption_mem _ _ _ _ hp)
            simp only
            omega
      unfold generateAppearances
      rw [if_neg h2]
      by_cases hb : pickOption config.groupConfig.options config.groupConfig.weights
          (g 2) = some true ∧
          4 ≤ (chosenPool (availableWrestlersOf wrestlers exclude minPoints) config g).length
      · rw [if_pos hb]
        unfold teamBranch
        rcases hac with h0 | h2c
        · rw [h0]
          simp [pickTeams]
        · have htc : min 2
              (chosenCount (availableWrestlersOf wrestlers exclude minPoints) config g / 2)
              = 1 ∨
              min 2 (chosenCount (availableWrestlersOf wrestlers exclude minPoints)
                config g / 2) = 2 := by omega
          rcases htc with h1 | h1
          · rw [h1]
            simp only [Nat.div_one]
            have hlen := pickTeams_length
              (chosenPool (availableWrestlersOf wrestlers exclude minPoints) config g)
              (chosenCount (availableWrestlersOf wrestlers exclude minPoints) config g)
              g hndP hg 1 [] 3 (by simpa using hacle)
            omega
          · rw [h1]
            dsimp only
            have hle : 2 *
                (chosenCount (availableWrestlersOf wrestlers exclude minPoints) config g / 2)
                ≤ (chosenPool (availableWrestlersOf wrestlers exclude minPoints)
                    config g).length :=
              le_trans (by omega) hacle
            have hlen := pickTeams_length
              (chosenPool (availableWrestlersOf wrestlers exclude minPoints) config g)
              (chosenCount (availableWrestlersOf wrestlers exclude minPoints) config g / 2)
              g hndP hg 2 [] 3 (by simpa using hle)
            omega
      · rw [if_neg hb]
        unfold individualBranch
        have hlen := pickIndividuals_length
          (chosenPool (availableWrestlersOf wrestlers exclude minPoints) config g)
          g hndP hg
          (chosenCount (availableWrestlersOf wrestlers exclude minPoints) config g)
          0 [] 4 (by simpa using hacle)
        omega
  · intro a ha
    unfold generateAppearances at ha
    by_cases h2 : (availableWrestlersOf wrestlers exclude minPoints).length < 2
    · rw [if_pos h2] at ha
      simp at ha
    · rw [if_neg h2] at ha
      by_cases hb : pickOption config.groupConfig.options config.groupConfig.weights
          (g 2) = some true ∧
          4 ≤ (chosenPool (availableWrestlersOf wrestlers exclude minPoints) config g).length
      · rw [if_pos hb] at ha
        unfold teamBranch at ha
        obtain ⟨_, p2, p3, p4, _⟩ := (pickTeams_inv _ _ g _ [] 3).2 a ha
        exact ⟨p2, p3, p4⟩
      · rw [if_neg hb] at ha
        unfold individualBranch at ha
        obtain ⟨_, p2, p3, p4, _⟩ := (pickIndividuals_inv _ g _ 0 [] 4).2 a ha
        exact ⟨p2, p3, p4⟩

/-- Unfolding of the team loop for exactly two teams. -/
lemma pickTeams_two (avail : List Wrestler) (pt : Nat) (g : Nat → ℚ)
    (used : List ℤ) (i : Nat) :
    pickTeams avail pt g 2 used i =
      ((pickTeamMembers avail (getId (g i)) g pt used (i + 1)).1 ++
        ((pickTeamMembers avail
            (getId (g (pickTeamMembers avail (getId (g i)) g pt used (i + 1)).2.2)) g pt
            (pickTeamMembers avail (getId (g i)) g pt used (i + 1)).2.1
            ((pickTeamMembers avail (getId (g i)) g pt used (i + 1)).2.2 + 1)).1 ++ []),
       (pickTeamMembers avail
            (getId (g (pickTeamMembers avail (getId (g i)) g pt used (i + 1)).2.2)) g pt
            (pickTeamMembers avail (getId (g i)) g pt used (i + 1)).2.1
            ((pickTeamMembers avail (getId (g i)) g pt used (i + 1)).2.2 + 1)).2.1,
       (pickTeamMembers avail
            (getId (g (pickTeamMembers avail (getId (g i)) g pt used (i + 1)).2.2)) g pt
            (pickTeamMembers avail (getId (g i)) g pt used (i + 1)).2.1
            ((pickTeamMembers avail (getId (g i)) g pt used (i + 1)).2.2 + 1)).2.2) := rfl

/-- C3 (amended): when team mode is chosen with at least 4 candidates, the
chosen participant count (clamped to the pool) is at least 4, and the two
random team ids differ, exactly 2 teams are formed, each of size
`actualCount / 2`: the groupId sequence is two blocks of that size, and 2
distinct groupIds are present. (With a clamped count of 2 or 3 the code
forms a single team, and equal team-id draws would merge the teams — see
the counterexample.) -/
theorem c3_team_structure (wrestlers : List Wrestler) (config : RandomizationConfig)
    (exclude : List ℤ) (minPoints : ℚ) (g : Nat → ℚ)
    (hnd : (wrestlers.map fun w => w.id).Nodup)
    (hg : ∀ n, 0 ≤ g n ∧ g n < 1)
    (h2 : ¬(availableWrestlersOf wrestlers exclude minPoints).length < 2)
    (hteam : pickOption config.groupConfig.options config.groupConfig.weights (g 2)
      = some true)
    (hpool : 4 ≤ (chosenPool (availableWrestlersOf wrestlers exclude minPoints)
      config g).length)
    (hac : 4 ≤ chosenCount (availableWrestlersOf wrestlers exclude minPoints) config g)
    (hgid : getId (g 3) ≠ getId (g (4 +
      chosenCount (availableWrestlersOf wrestlers exclude minPoints) config g / 2))) :
    (generateAppearances wrestlers config exclude minPoints g).map (fun a => a.groupId) =
      List.replicate
        (chosenCount (availableWrestlersOf wrestlers exclude minPoints) config g / 2)
        (getId (g 3)) ++
      List.replicate
        (chosenCount (availableWrestlersOf wrestlers exclude minPoints) config g / 2)
        (getId (g (4 +
          chosenCount (availableWrestlersOf wrestlers exclude minPoints) config g / 2))) ∧
    ((generateAppearances wrestlers config exclude minPoints g).map
      fun a => a.groupId).dedup.length = 2 := by
  have hndA : ((availableWrestlersOf wrestlers exclude minPoints).map
      fun w => w.id).Nodup :=
    (((availableWrestlersOf_sublist wrestlers exclude minPoints).map
      fun w => w.id).nodup hnd)
  have hndP : ((chosenPool (availableWrestlersOf wrestlers exclude minPoints) config g).map
      fun w => w.id).Nodup :=
    (((chosenPool_sublist _ config g).map fun w => w.id).nodup hndA)
  have hacle := chosenCount_le_pool (availableWrestlersOf wrestlers exclude minPoints)
    config g
  have gen_eq : generateAppearances wrestlers config exclude minPoints g =
      teamBranch (chosenPool (availableWrestlersOf wrestlers exclude minPoints) config g)
        (chosenCount (availableWrestlersOf wrestlers exclude minPoints) config g) g := by
    unfold generateAppearances
    rw [if_neg h2, if_pos ⟨hteam, hpool⟩]
  have htc : min 2
      (chosenCount (availableWrestlersOf wrestlers exclude minPoints) config g / 2) = 2 := by
    omega
  rw [gen_eq]
  unfold teamBranch
  rw [htc]
  dsimp only
  rw [pickTeams_two]
  rcases hm1 : pickTeamMembers
      (chosenPool (availableWrestlersOf wrestlers exclude minPoints) config g)
      (getId (g 3)) g
      (chosenCount (availableWrestlersOf wrestlers exclude minPoints) config g / 2)
      [] 4 with ⟨apps1, u1, i1⟩
  have hlen1 := pickTeamMembers_length
    (chosenPool (availableWrestlersOf wrestlers exclude minPoints) config g)
    (getId (g 3)) g hndP hg
    (chosenCount (availableWrestlersOf wrestlers exclude minPoints) config g / 2)
    [] 4 (by simp; omega)
  have hused1 := pickTeamMembers_used
    (chosenPool (availableWrestlersOf wrestlers exclude minPoints) config g)
    (getId (g 3)) g
    (chosenCount (availableWrestlersOf wrestlers exclude minPoints) config g / 2)
    [] 4
  have hinv1 := pickTeamMembers_inv
    (chosenPool (availableWrestlersOf wrestlers exclude minPoints) config g)
    (getId (g 3)) g
    (chosenCount (availableWrestlersOf wrestlers exclude minPoints) config g / 2)
    [] 4
  rw [hm1] at hlen1 hused1 hinv1
  simp only at hlen1 hused1 hinv1
  obtain ⟨hu1, hi1⟩ := hused1
  have hi1v : i1 = 4 +
      chosenCount (availableWrestlersOf wrestlers exclude minPoints) config g / 2 := by
    rw [hi1, hlen1]
  have hu1len : u1.length =
      chosenCount (availableWrestlersOf wrestlers exclude minPoints) config g / 2 := by
    rw [hu1]
    simp [hlen1]
  rcases hm2 : pickTeamMembers
      (chosenPool (availableWrestlersOf wrestlers exclude minPoints) config g)
      (getId (g i1)) g
      (chosenCount (availableWrestlersOf wrestlers exclude minPoints) config g / 2)
      u1 (i1 + 1) with ⟨apps2, u2, i2⟩
  have hlen2 := pickTeamMembers_length
    (chosenPool (availableWrestlersOf wrestlers exclude minPoints) config g)
    (getId (g i1)) g hndP hg
    (chosenCount (availableWrestlersOf wrestlers exclude minPoints) config g / 2)
    u1 (i1 + 1) (by rw [hu1len]; omega)
  have hinv2 := pickTeamMembers_inv
    (chosenPool (availableWrestlersOf wrestlers exclude minPoints) config g)
    (getId (g i1)) g
    (chosenCount (availableWrestlersOf wrestlers exclude minPoints) config g / 2)
    u1 (i1 + 1)
  rw [hm2] at hlen2 hinv2
  simp only at hlen2 hinv2
  have hrep1 : apps1.map (fun a => a.groupId) =
      List.replicate
        (chosenCount (availableWrestlersOf wrestlers exclude minPoints) config g / 2)
        (getId (g 3)) := by
    apply List.eq_replicate_iff.mpr
    refine ⟨by simp [hlen1], ?_⟩
    intro b hb
    simp only [List.mem_map] at hb
    obtain ⟨a, ha, heq⟩ := hb
    rw [← heq]
    exact (hinv1.2 a ha).2.1
  have hrep2 : apps2.map (fun a => a.groupId) =
      List.replicate
        (chosenCount (availableWrestlersOf wrestlers exclude minPoints) config g / 2)
        (getId (g (4 +
          chosenCount (availableWrestlersOf wrestlers exclude minPoints) config g / 2))) := by
    apply List.eq_replicate_iff.mpr
    refine ⟨by simp [hlen2], ?_⟩
    intro b hb
    simp only [List.mem_map] at hb
    obtain ⟨a, ha, heq⟩ := hb
    rw [← heq, ← hi1v]
    exact (hinv2.2 a ha).2.1
  have hmapeq : (apps1 ++ (apps2 ++ [])).map (fun (a : Appearance) => a.groupId) =
      List.replicate
        (chosenCount (availableWrestlersOf wrestlers exclude minPoints) config g / 2)
        (getId (g 3)) ++
      List.replicate
        (chosenCount (availableWrestlersOf wrestlers exclude minPoints) config g / 2)
        (getId (g (4 +
          chosenCount (availableWrestlersOf wrestlers exclude minPoints) config g / 2))) := by
    simp only [List.append_nil, List.map_append]
    rw [hrep1, hrep2]
  refine ⟨hmapeq, ?_⟩
  rw [hmapeq]
  rw [← List.card_toFinset, List.toFinset_append,
    List.toFinset_replicate_of_ne_zero (by omega),
    List.toFinset_replicate_of_ne_zero (by omega),
    ← Finset.insert_eq,
    Finset.card_insert_of_not_mem (by simpa using hgid)]
  simp

/-- Witness for C10 (amended) at a two-performer roster, default config
and the all-zero stream. -/
theorem c10_no_singleton_fresh_flags_witness :
    (generateAppearances sampleRoster2 defaultConfig [] 40 zeroDraws).length ≠ 1 ∧
    ∀ a ∈ generateAppearances sampleRoster2 defaultConfig [] 40 zeroDraws,
      a.manager = false ∧ a.winner = false ∧ a.loser = false :=
  c10_no_singleton_fresh_flags sampleRoster2 defaultConfig [] 40 zeroDraws
    (by decide) (fun n => by norm_num [zeroDraws]) (by decide)

/-- Witness for C3 (amended) at a four-performer roster and a stream that
picks count 4, team mode, and two distinct team ids. -/
theorem c3_team_structure_witness :
    (generateAppearances sampleRoster4 defaultConfig [] 40 teamDraws).map
        (fun a => a.groupId) =
      List.replicate
        (chosenCount (availableWrestlersOf sampleRoster4 [] 40) defaultConfig teamDraws / 2)
        (getId (teamDraws 3)) ++
      List.replicate
        (chosenCount (availableWrestlersOf sampleRoster4 [] 40) defaultConfig teamDraws / 2)
        (getId (teamDraws (4 +
          chosenCount (availableWrestlersOf sampleRoster4 [] 40) defaultConfig teamDraws / 2))) ∧
    ((generateAppearances sampleRoster4 defaultConfig [] 40 teamDraws).map
      fun a => a.groupId).dedup.length = 2 :=
  c3_team_structure sampleRoster4 defaultConfig [] 40 teamDraws
    (by decide)
    (fun n => by unfold teamDraws; split_ifs <;> norm_num)
    (by norm_num [availableWrestlersOf, sampleRoster4, sampleWrestler])
    (by norm_num [pickOption, selectRandomItem, walkItems, defaultConfig, teamDraws])
    (by norm_num [chosenPool, chosenCount, availableWrestlersOf, pickOption,
      selectRandomItem, walkItems, getId, defaultConfig, sampleRoster4, sampleWrestler,
      teamDraws])
    (by norm_num [chosenCount, availableWrestlersOf, pickOption, selectRandomItem,
      walkItems, defaultConfig, sampleRoster4, sampleWrestler, teamDraws])
    (by
      norm_num [getId, chosenCount, availableWrestlersOf, pickOption, selectRandomItem,
        walkItems, defaultConfig, sampleRoster4, sampleWrestler, teamDraws]
      rw [if_pos (show 4 + Int.toNat 4 / 2 = 6 by decide)]
      norm_num)
